import Mathlib

/-!
Shallow embedding of the mini_rootfs Linux dynamic linker core
(src/linux/src/linker.c, src/linux/src/dlfcn.c) and proofs of the
specification claims about it.

Modelling conventions:
* C strings are byte lists (`List Nat`, each entry a byte value); a string
  table is a byte list and `strAt tab off` is the NUL-terminated string at
  offset `off` (mirrors `strtab + st_name` plus `strcmp`).
* Machine integers are `Nat` with explicit `% 2^32` / `% 2^64` where the C
  computation can wrap.
* Pointers are `Nat` addresses with `0` as NULL; `(void*)-1` is `2^64 - 1`.
* Out-of-bounds reads of unsigned arrays (undefined behaviour in the C) are
  modelled by `List.getD` with a default; the default symbol has
  `st_shndx = SHN_UNDEF` and so never qualifies as a definition.
* The unbounded `do/while` chain walks receive fuel one larger than the
  chain array, which is enough for any well-formed hash table; running out
  of fuel models the undefined behaviour of a malformed table.
-/

/-- The NUL-terminated byte string stored at offset `off` of a string
table, as read by `si->strtab + sym->st_name`. -/
def strAt (tab : List Nat) (off : Nat) : List Nat :=
  (tab.drop off).takeWhile (fun b => b ≠ 0)

/-- One `Elf64_Sym` entry. -/
structure ElfSym where
  st_name : Nat
  st_info : Nat
  st_shndx : Nat
  st_value : Nat
  st_size : Nat
deriving DecidableEq

/-- Default symbol produced by an out-of-bounds symbol-table read.  Its
section index is `SHN_UNDEF`, so it can never qualify as a definition. -/
def defaultSym : ElfSym := ⟨0, 0, 0, 0, 0⟩

def SHN_UNDEF : Nat := 0
def STB_GLOBAL : Nat := 1
def STB_WEAK : Nat := 2

/-- `ELF64_ST_BIND(info) = info >> 4`. -/
def stBind (info : Nat) : Nat := info >>> 4

/-- `elf_hash` from linker.c: the classic SysV ELF hash on `uint32_t`. -/
def elf_hash_step (h c : Nat) : Nat :=
  let h1 := ((h <<< 4) + c) % 4294967296
  let g := h1 &&& 0xf0000000
  let h2 := if g ≠ 0 then h1 ^^^ (g >>> 24) else h1
  h2 &&& (0xffffffff ^^^ g)

def elf_hash (name : List Nat) : Nat := name.foldl elf_hash_step 0

/-- `gnu_hash` from linker.c: `h = 5381`, then `h = (h << 5) + h + c` on
`uint32_t` for each name byte. -/
def gnu_hash (name : List Nat) : Nat :=
  name.foldl (fun h c => ((h <<< 5) + h + c) % 4294967296) 5381

/-- The ELF hash table reachable through `si->hash`:
`bucket = &hash[2]`, `chain = &hash[2 + nbucket]`, with
`nbucket = hash[0]` and `nchain = hash[1]` the array lengths. -/
structure ElfHashTab where
  bucket : List Nat
  chain : List Nat
deriving DecidableEq

/-- The GNU hash table reachable through `si->gnu_hash`:
header words `nbuckets, symoffset, bloom_size, bloom_shift`, then
`bloom_size` 64-bit bloom words, then `nbuckets` bucket entries, then the
chain array.  `nbuckets` and `bloom_size` are the list lengths. -/
structure GnuHashTab where
  symoffset : Nat
  bloom_shift : Nat
  bloom : List Nat
  buckets : List Nat
  chain : List Nat
deriving DecidableEq

/-- One `Elf64_Rela` entry.  The addend is kept as its 64-bit
two's-complement bit pattern. -/
structure Rela where
  r_offset : Nat
  r_info : Nat
  r_addend : Nat
deriving DecidableEq

/-- `ELF64_R_TYPE(info)`: low 32 bits. -/
def relocType (info : Nat) : Nat := info % 4294967296

/-- `ELF64_R_SYM(info)`: high 32 bits. -/
def relocSym (info : Nat) : Nat := info / 4294967296

def R_X86_64_NONE : Nat := 0
def R_X86_64_64 : Nat := 1
def R_X86_64_COPY : Nat := 5
def R_X86_64_GLOB_DAT : Nat := 6
def R_X86_64_JUMP_SLOT : Nat := 7
def R_X86_64_RELATIVE : Nat := 8

/-- The `soinfo_t` record of linker.h.  Function pointers and array entries
are raw addresses; `0` models a NULL pointer field.  For a module that
passed `parse_dynamic`, `symtab` and `strtab` are present (the C null
guards on them cannot fire for registered modules). -/
structure Soinfo where
  id : Nat
  name : List Nat
  load_bias : Nat
  symtab : List ElfSym
  strtab : List Nat
  hash : Option ElfHashTab
  gnu_hash : Option GnuHashTab
  rela : List Rela
  plt_rela : List Rela
  init_func : Nat
  init_array : List Nat
  fini_func : Nat
  fini_array : List Nat
  ref_count : Int
deriving DecidableEq

/-- `(uint8_t*)si->load_bias + sym->st_value`, a 64-bit pointer value. -/
def symAddr (si : Soinfo) (s : ElfSym) : Nat :=
  (si.load_bias + s.st_value) % 18446744073709551616

/-- The chain walk of `gnu_lookup`: starting at symbol index `n`, compare
`(h1 ^ chain[n - symoffset]) >> 1` with zero, on a hash match compare the
names, stop when the chain entry's low bit is set, else advance to
`n + 1`. -/
def gnuChainWalk (si : Soinfo) (g : GnuHashTab) (name : List Nat) (h1 : Nat) :
    Nat → Nat → Option ElfSym
  | 0, _ => none
  | fuel + 1, n =>
    if (h1 ^^^ g.chain.getD (n - g.symoffset) 0) >>> 1 = 0 ∧
       strAt si.strtab (si.symtab.getD n defaultSym).st_name = name then
      some (si.symtab.getD n defaultSym)
    else if g.chain.getD (n - g.symoffset) 0 % 2 = 1 then
      none
    else
      gnuChainWalk si g name h1 fuel (n + 1)

/-- `gnu_lookup` from linker.c: bloom filter test, bucket selection, then
the chain walk. -/
def gnu_lookup (si : Soinfo) (name : List Nat) : Option ElfSym :=
  match si.gnu_hash with
  | none => none
  | some g =>
    let h1 := gnu_hash name
    let word := g.bloom.getD ((h1 / 64) % g.bloom.length) 0
    let mask := (1 <<< (h1 % 64)) ||| (1 <<< ((h1 >>> g.bloom_shift) % 64))
    if word &&& mask ≠ mask then none
    else
      let n := g.buckets.getD (h1 % g.buckets.length) 0
      if n = 0 then none
      else gnuChainWalk si g name h1 (g.chain.length + 1) n

/-- Does a symbol qualify as a returned definition in `linker_find_symbol`:
section index not `SHN_UNDEF` and binding global or weak? -/
def symQualifies (s : ElfSym) : Prop :=
  s.st_shndx ≠ SHN_UNDEF ∧ (stBind s.st_info = STB_GLOBAL ∨ stBind s.st_info = STB_WEAK)

instance (s : ElfSym) : Decidable (symQualifies s) := by
  unfold symQualifies; infer_instance

/-- A symbol that `linker_find_symbol si name` may return: its name bytes
match and it qualifies as a definition. -/
def Qualifies (si : Soinfo) (name : List Nat) (s : ElfSym) : Prop :=
  strAt si.strtab s.st_name = name ∧ symQualifies s

instance (si : Soinfo) (name : List Nat) (s : ElfSym) : Decidable (Qualifies si name s) := by
  unfold Qualifies; infer_instance

/-- The ELF-hash loop body of `linker_find_symbol`:
`for (i = bucket[hash % nbucket]; i != 0; i = chain[i])`, returning the
address on a qualifying name match (`some a`), `none` when the loop falls
through. -/
def elfChainWalk (si : Soinfo) (h : ElfHashTab) (name : List Nat) :
    Nat → Nat → Option Nat
  | 0, _ => none
  | fuel + 1, i =>
    if i = 0 then none
    else if Qualifies si name (si.symtab.getD i defaultSym) then
      some (symAddr si (si.symtab.getD i defaultSym))
    else elfChainWalk si h name fuel (h.chain.getD i 0)

/-- `get_symbol_count`: `nchain` from the ELF hash table, else the literal
fallback bound 256. -/
def get_symbol_count (si : Soinfo) : Nat :=
  match si.hash with
  | some h => h.chain.length
  | none => 256

/-- The GNU-hash branch of `linker_find_symbol`: `some addr` when it
returns, `none` when control falls through to the next strategy. -/
def gnuPath (si : Soinfo) (name : List Nat) : Option Nat :=
  match si.gnu_hash with
  | none => none
  | some _ =>
    match gnu_lookup si name with
    | none => none
    | some sym => if symQualifies sym then some (symAddr si sym) else none

/-- The ELF-hash branch of `linker_find_symbol`. -/
def elfPath (si : Soinfo) (name : List Nat) : Option Nat :=
  match si.hash with
  | none => none
  | some h =>
    elfChainWalk si h name (h.chain.length + 1)
      (h.bucket.getD (elf_hash name % h.bucket.length) 0)

/-- The linear-search fallback branch of `linker_find_symbol` (runs only
when neither hash table exists): scan indices `0 ≤ i < count`, skip
entries with `st_name == 0`, return the first qualifying name match. -/
def linearPath (si : Soinfo) (name : List Nat) : Option Nat :=
  (List.range (get_symbol_count si)).findSome? fun i =>
    if (si.symtab.getD i defaultSym).st_name ≠ 0 ∧
       Qualifies si name (si.symtab.getD i defaultSym) then
      some (symAddr si (si.symtab.getD i defaultSym))
    else none

/-- `linker_find_symbol` from linker.c.  Returns the symbol address, `0`
for NULL (absence). -/
def linker_find_symbol (si : Soinfo) (name : List Nat) : Nat :=
  match gnuPath si name with
  | some a => a
  | none =>
    match elfPath si name with
    | some a => a
    | none =>
      if si.hash = none ∧ si.gnu_hash = none then
        match linearPath si name with
        | some a => a
        | none => 0
      else 0

example : stBind 16 = STB_GLOBAL := by decide
example : strAt [0, 120, 0] 1 = [120] := by decide

/-- Bytes of "Failed to open: ". -/
def msgFailedOpenPre : List Nat := [70, 97, 105, 108, 101, 100, 32, 116, 111, 32, 111, 112, 101, 110, 58, 32]

/-- Bytes of "Out of memory". -/
def msgOom : List Nat := [79, 117, 116, 32, 111, 102, 32, 109, 101, 109, 111, 114, 121]

/-- Bytes of "No loadable segments". -/
def msgNoLoad : List Nat := [78, 111, 32, 108, 111, 97, 100, 97, 98, 108, 101, 32, 115, 101, 103, 109, 101, 110, 116, 115]

/-- Bytes of "mmap failed". -/
def msgMmapFailed : List Nat := [109, 109, 97, 112, 32, 102, 97, 105, 108, 101, 100]

/-- Bytes of "Failed to open file for mmap". -/
def msgOpenFd : List Nat := [70, 97, 105, 108, 101, 100, 32, 116, 111, 32, 111, 112, 101, 110, 32, 102, 105, 108, 101, 32, 102, 111, 114, 32, 109, 109, 97, 112]

/-- Bytes of "Failed to mmap segment". -/
def msgMmapSeg : List Nat := [70, 97, 105, 108, 101, 100, 32, 116, 111, 32, 109, 109, 97, 112, 32, 115, 101, 103, 109, 101, 110, 116]

/-- Bytes of "Failed to mmap BSS". -/
def msgMmapBss : List Nat := [70, 97, 105, 108, 101, 100, 32, 116, 111, 32, 109, 109, 97, 112, 32, 66, 83, 83]

/-- Bytes of "No dynamic section". -/
def msgNoDynamic : List Nat := [78, 111, 32, 100, 121, 110, 97, 109, 105, 99, 32, 115, 101, 99, 116, 105, 111, 110]

/-- Bytes of "Missing symbol table or string table". -/
def msgMissingTables : List Nat := [77, 105, 115, 115, 105, 110, 103, 32, 115, 121, 109, 98, 111, 108, 32, 116, 97, 98, 108, 101, 32, 111, 114, 32, 115, 116, 114, 105, 110, 103, 32, 116, 97, 98, 108, 101]

/-- Bytes of "dlopen: path is NULL". -/
def msgDlopenNullPath : List Nat := [100, 108, 111, 112, 101, 110, 58, 32, 112, 97, 116, 104, 32, 105, 115, 32, 78, 85, 76, 76]

/-- Bytes of "dlsym: symbol is NULL". -/
def msgDlsymNullName : List Nat := [100, 108, 115, 121, 109, 58, 32, 115, 121, 109, 98, 111, 108, 32, 105, 115, 32, 78, 85, 76, 76]

/-- Bytes of "dlsym: symbol not found: ". -/
def msgDlsymNotFoundPre : List Nat := [100, 108, 115, 121, 109, 58, 32, 115, 121, 109, 98, 111, 108, 32, 110, 111, 116, 32, 102, 111, 117, 110, 100, 58, 32]

/-- Bytes of "dlsym: RTLD_NEXT not implemented". -/
def msgDlsymNext : List Nat := [100, 108, 115, 121, 109, 58, 32, 82, 84, 76, 68, 95, 78, 69, 88, 84, 32, 110, 111, 116, 32, 105, 109, 112, 108, 101, 109, 101, 110, 116, 101, 100]

/-- Bytes of "dlsym: symbol not found in ". -/
def msgDlsymNotFoundInPre : List Nat := [100, 108, 115, 121, 109, 58, 32, 115, 121, 109, 98, 111, 108, 32, 110, 111, 116, 32, 102, 111, 117, 110, 100, 32, 105, 110, 32]

/-- Bytes of ": ". -/
def msgColonSpace : List Nat := [58, 32]

/-- Bytes of "dlclose: invalid handle". -/
def msgDlcloseNull : List Nat := [100, 108, 99, 108, 111, 115, 101, 58, 32, 105, 110, 118, 97, 108, 105, 100, 32, 104, 97, 110, 100, 108, 101]

/-- The global `linker_state_t`: the registry head and the one-shot error
slot (`error_msg` buffer of 512 bytes, `has_error` dirty flag). -/
structure LinkerState where
  soinfo_list : List Soinfo
  error_msg : List Nat
  has_error : Bool
deriving DecidableEq

/-- `linker_init`: a zeroed linker state. -/
def linker_init : LinkerState := ⟨[], [], false⟩

/-- `linker_set_error`: `vsnprintf` into the 512-byte buffer (truncating
to 511 content bytes) and set the dirty flag. -/
def linker_set_error (st : LinkerState) (msg : List Nat) : LinkerState :=
  { st with error_msg := msg.take 511, has_error := true }

/-- `linker_get_error`: when the dirty flag is set, clear it and return
the buffered string; otherwise return NULL (`none`). -/
def linker_get_error (st : LinkerState) : Option (List Nat) × LinkerState :=
  if st.has_error then (some st.error_msg, { st with has_error := false })
  else (none, st)

/-- The registry loop of `linker_find_global_symbol`: first non-NULL
`linker_find_symbol` result along the list. -/
def findInList : List Soinfo → List Nat → Nat
  | [], _ => 0
  | si :: rest, name =>
    let a := linker_find_symbol si name
    if a ≠ 0 then a else findInList rest name

/-- `linker_find_global_symbol`: walk the registry list from its head,
then fall back to the host loader (`dlsym(RTLD_DEFAULT, name)`, modelled
by `host`; a host miss is the NULL address). -/
def linker_find_global_symbol (st : LinkerState) (host : List Nat → Nat)
    (name : List Nat) : Nat :=
  let a := findInList st.soinfo_list name
  if a ≠ 0 then a else host name

/-- Process memory, byte-addressed. -/
def Mem := Nat → Nat

/-- Store the `k` low-order bytes of `v` little-endian at address `a`. -/
def writeBytes : Mem → Nat → Nat → Nat → Mem
  | m, _, 0, _ => m
  | m, a, k + 1, v => writeBytes (fun x => if x = a then v % 256 else m x) (a + 1) k (v / 256)

/-- Read `k` bytes little-endian at address `a`. -/
def readBytes : Mem → Nat → Nat → Nat
  | _, _, 0 => 0
  | m, a, k + 1 => m a + 256 * readBytes m (a + 1) k

/-- `*(uint64_t*)a = v` on little-endian memory. -/
def write64 (m : Mem) (a v : Nat) : Mem := writeBytes m a 8 v

/-- The 64-bit little-endian word at address `a`. -/
def read64 (m : Mem) (a : Nat) : Nat := readBytes m a 8

/-- `memcpy(dst, src, n)`. -/
def memcpy (m : Mem) (dst src n : Nat) : Mem :=
  fun x => if dst ≤ x ∧ x < dst + n then m (src + (x - dst)) else m x

/-- The symbol-address computation of `do_reloc`: NULL when the entry has
no symbol; the local definition's address when `st_shndx != SHN_UNDEF`;
otherwise the global lookup result (NULL when unresolved, weak or not). -/
def reloc_sym_addr (st : LinkerState) (host : List Nat → Nat) (si : Soinfo)
    (r : Rela) : Nat :=
  if relocSym r.r_info = 0 then 0
  else
    let s := si.symtab.getD (relocSym r.r_info) defaultSym
    if s.st_shndx ≠ SHN_UNDEF then symAddr si s
    else linker_find_global_symbol st host (strAt si.strtab s.st_name)

/-- `do_reloc` from linker.c: patch one relocation entry.  The second
component is the C return value (always 0: every case, including an
unrecognised type, is non-fatal). -/
def do_reloc (st : LinkerState) (host : List Nat → Nat) (si : Soinfo)
    (r : Rela) (m : Mem) : Mem × Int :=
  let t := relocType r.r_info
  let target := (si.load_bias + r.r_offset) % 18446744073709551616
  let sym_addr := reloc_sym_addr st host si r
  if t = R_X86_64_NONE then (m, 0)
  else if t = R_X86_64_64 then
    (write64 m target ((sym_addr + r.r_addend) % 18446744073709551616), 0)
  else if t = R_X86_64_GLOB_DAT then (write64 m target sym_addr, 0)
  else if t = R_X86_64_JUMP_SLOT then (write64 m target sym_addr, 0)
  else if t = R_X86_64_RELATIVE then
    (write64 m target ((si.load_bias + r.r_addend) % 18446744073709551616), 0)
  else if t = R_X86_64_COPY then
    (if sym_addr ≠ 0 then
       memcpy m target sym_addr (si.symtab.getD (relocSym r.r_info) defaultSym).st_size
     else m, 0)
  else (m, 0)

/-- `linker_relocate`: all RELA entries, then all PLT-RELA entries; the
status is the C return value (always 0 because `do_reloc` never fails). -/
def linker_relocate (st : LinkerState) (host : List Nat → Nat) (si : Soinfo)
    (m : Mem) : Mem × Int :=
  let m1 := si.rela.foldl (fun acc r => (do_reloc st host si r acc).1) m
  let m2 := si.plt_rela.foldl (fun acc r => (do_reloc st host si r acc).1) m1
  (m2, 0)

/-- Observable operations performed by `linker_load`, `linker_unload` and
the facade, in program order. -/
inductive Event where
  | elfOpen
  | allocSi
  | reserveMap
  | openFd
  | mapSegments
  | closeFd
  | parseDyn
  | relocate
  | insertRegistry
  | elfClose
  | munmapReserve
  | freeSi
  | callInit (addr : Nat)
  | callFini (addr : Nat)
  | munmapModule
  | freeModule
deriving DecidableEq

/-- Is the event a constructor invocation? -/
def Event.isCtor : Event → Bool
  | Event.callInit _ => true
  | _ => false

/-- `is_valid_func_ptr`: neither NULL nor `(void*)-1`. -/
def is_valid_func_ptr (p : Nat) : Bool :=
  p ≠ 0 && p ≠ 18446744073709551615

/-- The `DT_INIT_ARRAY` loop of `linker_call_constructors`: ascending
index order, invalid entries skipped. -/
def init_array_events : List Nat → List Event
  | [] => []
  | p :: rest =>
    (if is_valid_func_ptr p then [Event.callInit p] else []) ++ init_array_events rest

/-- `linker_call_constructors`: `DT_INIT` first (when valid), then the
`DT_INIT_ARRAY` entries in ascending order. -/
def constructor_events (si : Soinfo) : List Event :=
  (if is_valid_func_ptr si.init_func then [Event.callInit si.init_func] else []) ++
  init_array_events si.init_array

/-- The `DT_FINI_ARRAY` loop of `linker_call_destructors`:
`for (i = count; i > 0; i--)` invoking entry `i - 1` when valid. -/
def fini_array_events (arr : List Nat) : Nat → List Event
  | 0 => []
  | i + 1 =>
    (if is_valid_func_ptr (arr.getD i 0) then [Event.callFini (arr.getD i 0)] else []) ++
    fini_array_events arr i

/-- `linker_call_destructors`: `DT_FINI_ARRAY` in descending index order,
then `DT_FINI` (when valid). -/
def destructor_events (si : Soinfo) : List Event :=
  fini_array_events si.fini_array si.fini_array.length ++
  (if is_valid_func_ptr si.fini_func then [Event.callFini si.fini_func] else [])

/-- Abstraction of one on-disk ELF file together with the outcomes of the
fallible system calls `linker_load` makes on it.  `mod` carries the parsed
content (name is the path); the booleans record which step succeeds, and
`load_size` is the `calculate_load_size` result. -/
structure LoadInput where
  mod : Soinfo
  elf_ok : Bool
  alloc_ok : Bool
  load_size : Nat
  reserve_ok : Bool
  open2_ok : Bool
  seg_ok : Bool
  bss_ok : Bool
  has_dynamic : Bool
  has_symtab : Bool
  has_strtab : Bool
deriving DecidableEq

/-- Does every step of `linker_load` succeed on this input? -/
def LoadInput.ok (inp : LoadInput) : Prop :=
  inp.elf_ok = true ∧ inp.alloc_ok = true ∧ inp.load_size ≠ 0 ∧
  inp.reserve_ok = true ∧ inp.open2_ok = true ∧ inp.seg_ok = true ∧
  inp.bss_ok = true ∧ inp.has_dynamic = true ∧ inp.has_symtab = true ∧
  inp.has_strtab = true

instance (inp : LoadInput) : Decidable inp.ok := by
  unfold LoadInput.ok; infer_instance

/-- The module record registered on a successful load: the path copied by
`strncpy` into the 256-byte name buffer and `ref_count = 1`. -/
def loadedModule (inp : LoadInput) : Soinfo :=
  { inp.mod with name := inp.mod.name.take 255, ref_count := 1 }

/-- `linker_load` from linker.c as a state transformer, also returning the
loaded module (NULL = `none`) and the trace of operations.  The error arm
of each step mirrors the C `error:` label: close the segment fd when open,
unmap the reservation when it exists, free the `soinfo`, close the ELF
view; the registry is only touched in the final success step. -/
def linker_load (st : LinkerState) (inp : LoadInput) :
    LinkerState × Option Soinfo × List Event :=
  if inp.elf_ok = false then
    (linker_set_error st (msgFailedOpenPre ++ inp.mod.name), none, [Event.elfOpen])
  else if inp.alloc_ok = false then
    (linker_set_error st msgOom, none, [Event.elfOpen, Event.elfClose])
  else if inp.load_size = 0 then
    (linker_set_error st msgNoLoad, none,
     [Event.elfOpen, Event.allocSi, Event.freeSi, Event.elfClose])
  else if inp.reserve_ok = false then
    (linker_set_error st msgMmapFailed, none,
     [Event.elfOpen, Event.allocSi, Event.freeSi, Event.elfClose])
  else if inp.open2_ok = false then
    (linker_set_error st msgOpenFd, none,
     [Event.elfOpen, Event.allocSi, Event.reserveMap, Event.munmapReserve,
      Event.freeSi, Event.elfClose])
  else if inp.seg_ok = false then
    (linker_set_error st msgMmapSeg, none,
     [Event.elfOpen, Event.allocSi, Event.reserveMap, Event.openFd, Event.closeFd,
      Event.munmapReserve, Event.freeSi, Event.elfClose])
  else if inp.bss_ok = false then
    (linker_set_error st msgMmapBss, none,
     [Event.elfOpen, Event.allocSi, Event.reserveMap, Event.openFd, Event.closeFd,
      Event.munmapReserve, Event.freeSi, Event.elfClose])
  else if inp.has_dynamic = false then
    (linker_set_error st msgNoDynamic, none,
     [Event.elfOpen, Event.allocSi, Event.reserveMap, Event.openFd,
      Event.mapSegments, Event.closeFd, Event.parseDyn, Event.munmapReserve,
      Event.freeSi, Event.elfClose])
  else if inp.has_symtab = false ∨ inp.has_strtab = false then
    (linker_set_error st msgMissingTables, none,
     [Event.elfOpen, Event.allocSi, Event.reserveMap, Event.openFd,
      Event.mapSegments, Event.closeFd, Event.parseDyn, Event.munmapReserve,
      Event.freeSi, Event.elfClose])
  else
    let m := loadedModule inp
    ({ st with soinfo_list := m :: st.soinfo_list }, some m,
     [Event.elfOpen, Event.allocSi, Event.reserveMap, Event.openFd,
      Event.mapSegments, Event.closeFd, Event.parseDyn, Event.relocate,
      Event.insertRegistry, Event.elfClose])

/-- Decrement the reference count of the module the handle points at
(`si->ref_count--` through the handle). -/
def decRef (h : Nat) (m : Soinfo) : Soinfo :=
  if m.id = h then { m with ref_count := m.ref_count - 1 } else m

/-- The registry unlink loop of `linker_unload`: remove the first node
that is the handle's record. -/
def removeFirst (h : Nat) : List Soinfo → List Soinfo
  | [] => []
  | m :: rest => if m.id = h then rest else m :: removeFirst h rest

/-- `linker_unload` from linker.c.  The handle is a module id; a handle
that is not in the registry dereferences a stale pointer in the C
(undefined behaviour) and is modelled as a no-op. -/
def linker_unload (st : LinkerState) (h : Nat) : LinkerState × List Event :=
  match st.soinfo_list.find? (fun m => m.id = h) with
  | none => (st, [])
  | some m =>
    if m.ref_count - 1 > 0 then
      ({ st with soinfo_list := st.soinfo_list.map (decRef h) }, [])
    else
      ({ st with soinfo_list := removeFirst h st.soinfo_list },
       destructor_events m ++ [Event.munmapModule, Event.freeModule])

def MINI_RTLD_DEFAULT : Nat := 0
def MINI_RTLD_NEXT : Nat := 18446744073709551615

/-- `mini_dlopen` from dlfcn.c: a NULL path fails fast; otherwise load,
and on success run the constructors.  `flags` is accepted and ignored
(`(void)flags`).  The returned handle is the module (NULL = `none`). -/
def mini_dlopen (st : LinkerState) (path : Option LoadInput) (flags : Nat) :
    LinkerState × Option Soinfo × List Event :=
  match path with
  | none => (linker_set_error st msgDlopenNullPath, none, [])
  | some inp =>
    let r := linker_load st inp
    match r.2.1 with
    | none => (r.1, none, r.2.2)
    | some m => (r.1, some m, r.2.2 ++ constructor_events m)

/-- `mini_dlsym` from dlfcn.c.  The handle is NULL (`MINI_RTLD_DEFAULT`),
`(void*)-1` (`MINI_RTLD_NEXT`), or a module id; a stale module handle is
undefined behaviour in the C and modelled as a NULL result. -/
def mini_dlsym (st : LinkerState) (host : List Nat → Nat) (h : Nat)
    (symbol : Option (List Nat)) : LinkerState × Nat :=
  match symbol with
  | none => (linker_set_error st msgDlsymNullName, 0)
  | some name =>
    if h = MINI_RTLD_DEFAULT then
      let addr := linker_find_global_symbol st host name
      if addr = 0 then (linker_set_error st (msgDlsymNotFoundPre ++ name), 0)
      else (st, addr)
    else if h = MINI_RTLD_NEXT then
      (linker_set_error st msgDlsymNext, 0)
    else
      match st.soinfo_list.find? (fun m => m.id = h) with
      | none => (st, 0)
      | some m =>
        let addr := linker_find_symbol m name
        if addr = 0 then
          (linker_set_error st
            (msgDlsymNotFoundInPre ++ m.name ++ msgColonSpace ++ name), 0)
        else (st, addr)

/-- `mini_dlclose` from dlfcn.c. -/
def mini_dlclose (st : LinkerState) (h : Nat) : LinkerState × Int × List Event :=
  if h = 0 then (linker_set_error st msgDlcloseNull, -1, [])
  else
    let r := linker_unload st h
    (r.1, 0, r.2)

/-- `mini_dlerror` = `linker_get_error`. -/
def mini_dlerror (st : LinkerState) : Option (List Nat) × LinkerState :=
  linker_get_error st

/-- The success-path operation trace of `linker_load`. -/
def loadSuccessEvents : List Event :=
  [Event.elfOpen, Event.allocSi, Event.reserveMap, Event.openFd,
   Event.mapSegments, Event.closeFd, Event.parseDyn, Event.relocate,
   Event.insertRegistry, Event.elfClose]

/-- The GNU hash as the specification words it: `h = 5381`, then
`h = h * 33 + c` per name byte (on 32 bits). -/
def gnu_hash_spec (name : List Nat) : Nat :=
  name.foldl (fun h c => (h * 33 + c) % 4294967296) 5381

/-- Spec wording: chain entry `j` matches when
`(h ^ chain[j - symoffset]) >> 1 == 0` and the name bytes compare
equal. -/
def gnuSpecMatches (si : Soinfo) (g : GnuHashTab) (name : List Nat)
    (h1 j : Nat) : Prop :=
  (h1 ^^^ g.chain.getD (j - g.symoffset) 0) >>> 1 = 0 ∧
  strAt si.strtab (si.symtab.getD j defaultSym).st_name = name

instance (si : Soinfo) (g : GnuHashTab) (name : List Nat) (h1 j : Nat) :
    Decidable (gnuSpecMatches si g name h1 j) := by
  unfold gnuSpecMatches; infer_instance

/-- Spec wording: the walk terminates at entry `j` when
`chain[j - symoffset] & 1` is set. -/
def gnuSpecStops (g : GnuHashTab) (j : Nat) : Prop :=
  g.chain.getD (j - g.symoffset) 0 &&& 1 = 1

instance (g : GnuHashTab) (j : Nat) : Decidable (gnuSpecStops g j) := by
  unfold gnuSpecStops; infer_instance

/-- GNU-hash symbol lookup written from the specification's sentences
(§4.4 step 1): hash `h = 5381` accumulating `h * 33 + c`; bloom word
`bloom[(h / 64) mod bloom_size]` must contain both mask bits; chain walk
from `buckets[h mod nbuckets]` (zero means absence) to the first entry
that matches or carries the stop bit. -/
def gnu_lookup_spec (si : Soinfo) (name : List Nat) : Option ElfSym :=
  match si.gnu_hash with
  | none => none
  | some g =>
    let h1 := gnu_hash_spec name
    let w := g.bloom.getD ((h1 / 64) % g.bloom.length) 0
    let msk := (1 <<< (h1 % 64)) ||| (1 <<< ((h1 >>> g.bloom_shift) % 64))
    if w &&& msk ≠ msk then none
    else
      let n := g.buckets.getD (h1 % g.buckets.length) 0
      if n = 0 then none
      else
        match ((List.range (g.chain.length + 1)).map (fun k => n + k)).find?
            (fun j => decide (gnuSpecMatches si g name h1 j) ||
                      decide (gnuSpecStops g j)) with
        | some j =>
          if gnuSpecMatches si g name h1 j then some (si.symtab.getD j defaultSym)
          else none
        | none => none

/-- Global lookup as the claim words it: iterate the registry in
insertion order (the reverse of the linked list, because `linker_load`
prepends), returning the first definition, then fall back to the host
loader. -/
def linker_find_global_symbol_insertion (st : LinkerState)
    (host : List Nat → Nat) (name : List Nat) : Nat :=
  let a := findInList st.soinfo_list.reverse name
  if a ≠ 0 then a else host name

/-- A host loader that resolves nothing (for concrete instances). -/
def host0 : List Nat → Nat := fun _ => 0

/-- The byte string "x". -/
def nameX : List Nat := [120]

/-- A global defined symbol with value `v`: name offset 1, binding
`STB_GLOBAL` (`st_info = 0x10`), section index 1. -/
def symX (v : Nat) : ElfSym := ⟨1, 16, 1, v, 0⟩

/-- A concrete hashless module with id `i` defining "x" at
`load_bias + v = 4096 + v`. -/
def modDef (i v : Nat) (nm : List Nat) : Soinfo :=
  ⟨i, nm, 4096, [defaultSym, symX v], [0, 120, 0], none, none, [], [],
   0, [], 0, [], 0⟩

/-- A load input on which every step succeeds. -/
def inpOf (m : Soinfo) : LoadInput :=
  ⟨m, true, true, 4096, true, true, true, true, true, true, true⟩

/-- State after loading module 1 (defines "x" at 4196) and then module 2
(defines "x" at 4296). -/
def stAB : LinkerState :=
  (linker_load (linker_load linker_init (inpOf (modDef 1 100 [97]))).1
    (inpOf (modDef 2 200 [98]))).1

/-- The registry invariant: every registered module has a reference count
of at least one. -/
def RegistryWF (st : LinkerState) : Prop :=
  ∀ m ∈ st.soinfo_list, 1 ≤ m.ref_count

/-- All-zero memory (for concrete instances). -/
def mem0 : Mem := fun _ => 0

/-- A module with a valid `DT_INIT` (address 5) and an init array holding
one valid entry (6) and one NULL entry. -/
def modCtor : Soinfo :=
  ⟨9, [99], 4096, [defaultSym], [0], none, none, [], [], 5, [6, 0], 0, [], 0⟩

/-- A registry holding one module that defines only "x". -/
def stOne : LinkerState := ⟨[modDef 1 100 [97]], [], false⟩

/-- The byte string "z" (defined by no module). -/
def nameZ : List Nat := [122]

/-- A load input whose dynamic section lacks `DT_SYMTAB`. -/
def inpBad : LoadInput := { inpOf (modDef 1 100 [97]) with has_symtab := false }

/-- A registered module with reference count 1, two valid fini-array
entries around a NULL one, and a valid `DT_FINI`. -/
def modR : Soinfo :=
  { modDef 1 100 [97] with ref_count := 1, fini_array := [3, 0, 4], fini_func := 11 }

/-- A registry holding just `modR`. -/
def stR : LinkerState := ⟨[modR], [], false⟩

/-- An indexed read with default is either a list member or the default. -/
theorem getD_mem_or_eq {α : Type} (l : List α) (n : Nat) (d : α) :
    l.getD n d ∈ l ∨ l.getD n d = d := by
  rcases Nat.lt_or_ge n l.length with h | h
  · left
    rw [List.getD_eq_getElem l d h]
    exact List.getElem_mem h
  · right
    exact List.getD_eq_default l d h

/-- Writing at addresses at or above `a + 1` leaves byte `a` alone. -/
theorem writeBytes_lt (k : Nat) : ∀ (m : Mem) (a v x : Nat), x < a →
    writeBytes m a k v x = m x := by
  induction k with
  | zero => intro m a v x _; rfl
  | succ k ih =>
    intro m a v x hx
    show writeBytes (fun y => if y = a then v % 256 else m y) (a + 1) k (v / 256) x = m x
    rw [ih _ _ _ _ (Nat.lt_succ_of_lt hx)]
    simp [Nat.ne_of_lt hx]

/-- Little-endian round trip: reading back `k` freshly written bytes
recovers the value modulo `256 ^ k`. -/
theorem readBytes_writeBytes (k : Nat) : ∀ (m : Mem) (a v : Nat),
    readBytes (writeBytes m a k v) a k = v % 256 ^ k := by
  induction k with
  | zero => intro m a v; simp [readBytes, writeBytes, Nat.mod_one]
  | succ k ih =>
    intro m a v
    show readBytes (writeBytes (fun y => if y = a then v % 256 else m y) (a + 1) k (v / 256))
      a (k + 1) = v % 256 ^ (k + 1)
    have hbyte : writeBytes (fun y => if y = a then v % 256 else m y) (a + 1) k (v / 256) a
        = v % 256 := by
      rw [writeBytes_lt k _ _ _ _ (Nat.lt_succ_self a)]
      simp
    show writeBytes (fun y => if y = a then v % 256 else m y) (a + 1) k (v / 256) a +
        256 * readBytes (writeBytes (fun y => if y = a then v % 256 else m y)
          (a + 1) k (v / 256)) (a + 1) k = v % 256 ^ (k + 1)
    rw [hbyte, ih]
    rw [pow_succ, mul_comm (256 ^ k) 256, Nat.mod_mul]

/-- 64-bit round trip for `write64` / `read64`. -/
theorem read64_write64 (m : Mem) (a v : Nat) :
    read64 (write64 m a v) a = v % 18446744073709551616 := by
  have h := readBytes_writeBytes 8 m a v
  have : (256 : Nat) ^ 8 = 18446744073709551616 := by norm_num
  rw [this] at h
  exact h

/-- The C do/while chain walk coincides with the specification's "first
index at or after `n` that matches or stops" description. -/
theorem gnuChainWalk_eq_find (si : Soinfo) (g : GnuHashTab) (name : List Nat)
    (h1 : Nat) : ∀ (fuel n : Nat),
    gnuChainWalk si g name h1 fuel n =
      (match ((List.range fuel).map (fun k => n + k)).find?
          (fun j => decide (gnuSpecMatches si g name h1 j) ||
                    decide (gnuSpecStops g j)) with
       | some j =>
         if gnuSpecMatches si g name h1 j then some (si.symtab.getD j defaultSym)
         else none
       | none => none) := by
  intro fuel
  induction fuel with
  | zero => intro n; simp [gnuChainWalk]
  | succ fuel ih =>
    intro n
    rw [List.range_succ_eq_map, List.map_cons, List.map_map]
    have hshift : (List.range fuel).map ((fun k => n + k) ∘ Nat.succ) =
        (List.range fuel).map (fun k => (n + 1) + k) := by
      apply List.map_eq_map_iff.mpr
      intro a _
      simp only [Function.comp]
      omega
    rw [hshift]
    simp only [Nat.add_zero]
    by_cases hm : gnuSpecMatches si g name h1 n
    · have hp : (decide (gnuSpecMatches si g name h1 n) ||
          decide (gnuSpecStops g n)) = true := by simp [hm]
      simp only [List.find?, hp]
      rw [if_pos hm]
      have hm2 : (h1 ^^^ g.chain.getD (n - g.symoffset) 0) >>> 1 = 0 ∧
          strAt si.strtab (si.symtab.getD n defaultSym).st_name = name := hm
      simp only [gnuChainWalk]
      rw [if_pos hm2]
    · by_cases hs : gnuSpecStops g n
      · have hp : (decide (gnuSpecMatches si g name h1 n) ||
            decide (gnuSpecStops g n)) = true := by simp [hs]
        simp only [List.find?, hp]
        rw [if_neg hm]
        have hm2 : ¬((h1 ^^^ g.chain.getD (n - g.symoffset) 0) >>> 1 = 0 ∧
            strAt si.strtab (si.symtab.getD n defaultSym).st_name = name) := hm
        have hs2 : g.chain.getD (n - g.symoffset) 0 % 2 = 1 := by
          have h' : g.chain.getD (n - g.symoffset) 0 &&& 1 = 1 := hs
          rwa [Nat.and_one_is_mod] at h'
        simp only [gnuChainWalk]
        rw [if_neg hm2, if_pos hs2]
      · have hp : (decide (gnuSpecMatches si g name h1 n) ||
            decide (gnuSpecStops g n)) = false := by simp [hm, hs]
        simp only [List.find?, hp]
        have hm2 : ¬((h1 ^^^ g.chain.getD (n - g.symoffset) 0) >>> 1 = 0 ∧
            strAt si.strtab (si.symtab.getD n defaultSym).st_name = name) := hm
        have hs2 : ¬ g.chain.getD (n - g.symoffset) 0 % 2 = 1 := by
          intro h'
          exact hs (show g.chain.getD (n - g.symoffset) 0 &&& 1 = 1 by
            rwa [Nat.and_one_is_mod])
        simp only [gnuChainWalk]
        rw [if_neg hm2, if_neg hs2]
        exact ih (n + 1)

/-- The two hash folds agree: `(h << 5) + h + c` is `h * 33 + c`. -/
theorem gnu_hash_eq_spec (name : List Nat) : gnu_hash name = gnu_hash_spec name := by
  unfold gnu_hash gnu_hash_spec
  congr 1
  funext h c
  rw [Nat.shiftLeft_eq]
  norm_num
  omega

/-- C3: when a module has a GNU hash table, symbol lookup in it follows
exactly the specified algorithm: the DJB hash `h = 5381`, `h = h * 33 + c`
per name byte; the bloom-filter word `bloom[(h / 64) mod bloom_size]` must
contain the two mask bits `1 << (h mod 64)` and
`1 << ((h >> bloom_shift) mod 64)` or the result is absence; the chain
walk starts at `buckets[h mod nbuckets]` (zero means absence), matches an
entry when `(h ^ chain[n - symoffset]) >> 1 == 0` and the name bytes
compare equal, and terminates at a chain entry with the low bit set. -/
theorem gnu_lookup_matches_spec (si : Soinfo) (name : List Nat) :
    gnu_lookup si name = gnu_lookup_spec si name := by
  cases hg : si.gnu_hash with
  | none => simp [gnu_lookup, gnu_lookup_spec, hg]
  | some g =>
    simp only [gnu_lookup, gnu_lookup_spec, hg, ← gnu_hash_eq_spec]
    by_cases hb : g.bloom.getD ((gnu_hash name / 64) % g.bloom.length) 0 &&&
        ((1 <<< (gnu_hash name % 64)) ||| (1 <<< ((gnu_hash name >>> g.bloom_shift) % 64))) ≠
        ((1 <<< (gnu_hash name % 64)) ||| (1 <<< ((gnu_hash name >>> g.bloom_shift) % 64)))
    · rw [if_pos hb, if_pos hb]
    · rw [if_neg hb, if_neg hb]
      by_cases hn : g.buckets.getD (gnu_hash name % g.buckets.length) 0 = 0
      · rw [if_pos hn, if_pos hn]
      · rw [if_neg hn, if_neg hn]
        exact gnuChainWalk_eq_find si g name (gnu_hash name) (g.chain.length + 1) _

/-- Any symbol returned by the GNU chain walk name-matched, and is a
symbol-table member unless it is the out-of-bounds default. -/
theorem gnuChainWalk_sound (si : Soinfo) (g : GnuHashTab) (name : List Nat)
    (h1 : Nat) : ∀ (fuel n : Nat) (sym : ElfSym),
    gnuChainWalk si g name h1 fuel n = some sym →
    strAt si.strtab sym.st_name = name ∧ (sym ∈ si.symtab ∨ sym = defaultSym) := by
  intro fuel
  induction fuel with
  | zero => intro n sym h; simp [gnuChainWalk] at h
  | succ fuel ih =>
    intro n sym h
    simp only [gnuChainWalk] at h
    split at h
    · cases h
      next hc => exact ⟨hc.2, getD_mem_or_eq _ _ _⟩
    · split at h
      · cases h
      · exact ih (n + 1) sym h

/-- Any symbol returned by `gnu_lookup` name-matched, and is a member of
the symbol table unless it is the out-of-bounds default. -/
theorem gnu_lookup_sound (si : Soinfo) (name : List Nat) (sym : ElfSym)
    (h : gnu_lookup si name = some sym) :
    strAt si.strtab sym.st_name = name ∧ (sym ∈ si.symtab ∨ sym = defaultSym) := by
  cases hg : si.gnu_hash with
  | none => rw [gnu_lookup, hg] at h; cases h
  | some g =>
    rw [gnu_lookup, hg] at h
    simp only at h
    split at h
    · cases h
    · split at h
      · cases h
      · exact gnuChainWalk_sound si g name _ _ _ sym h

/-- Soundness of the GNU branch of `linker_find_symbol`. -/
theorem gnuPath_sound (si : Soinfo) (name : List Nat) (a : Nat)
    (h : gnuPath si name = some a) :
    ∃ s ∈ si.symtab, Qualifies si name s ∧ a = symAddr si s := by
  unfold gnuPath at h
  cases hg : si.gnu_hash with
  | none => rw [hg] at h; cases h
  | some g =>
    rw [hg] at h
    simp only at h
    cases hl : gnu_lookup si name with
    | none => rw [hl] at h; cases h
    | some sym =>
      rw [hl] at h
      have h' : (if symQualifies sym then some (symAddr si sym) else none) = some a := h
      by_cases hq : symQualifies sym
      · rw [if_pos hq] at h'
        cases h'
        obtain ⟨hname, hmem⟩ := gnu_lookup_sound si name sym hl
        rcases hmem with hm | hd
        · exact ⟨sym, hm, ⟨hname, hq⟩, rfl⟩
        · rw [hd] at hq
          exact absurd hq (by decide)
      · rw [if_neg hq] at h'
        cases h'

/-- Soundness of the ELF-hash chain walk. -/
theorem elfChainWalk_sound (si : Soinfo) (ht : ElfHashTab) (name : List Nat) :
    ∀ (fuel i : Nat) (a : Nat), elfChainWalk si ht name fuel i = some a →
    ∃ s ∈ si.symtab, Qualifies si name s ∧ a = symAddr si s := by
  intro fuel
  induction fuel with
  | zero => intro i a h; simp [elfChainWalk] at h
  | succ fuel ih =>
    intro i a h
    simp only [elfChainWalk] at h
    split at h
    · cases h
    · split at h
      next hq =>
        cases h
        rcases getD_mem_or_eq si.symtab i defaultSym with hm | hd
        · exact ⟨_, hm, hq, rfl⟩
        · rw [hd] at hq
          exact absurd hq.2 (by decide)
      next => exact ih _ a h

/-- Soundness of the ELF-hash branch of `linker_find_symbol`. -/
theorem elfPath_sound (si : Soinfo) (name : List Nat) (a : Nat)
    (h : elfPath si name = some a) :
    ∃ s ∈ si.symtab, Qualifies si name s ∧ a = symAddr si s := by
  unfold elfPath at h
  cases hh : si.hash with
  | none => rw [hh] at h; cases h
  | some ht =>
    rw [hh] at h
    exact elfChainWalk_sound si ht name _ _ a h

/-- Soundness of the linear-scan fallback of `linker_find_symbol`. -/
theorem linearPath_sound (si : Soinfo) (name : List Nat) (a : Nat)
    (h : linearPath si name = some a) :
    ∃ s ∈ si.symtab, Qualifies si name s ∧ a = symAddr si s := by
  unfold linearPath at h
  obtain ⟨i, _, hf⟩ := List.exists_of_findSome?_eq_some h
  split at hf
  next hc =>
    cases hf
    rcases getD_mem_or_eq si.symtab i defaultSym with hm | hd
    · exact ⟨_, hm, hc.2, rfl⟩
    · rw [hd] at hc
      exact absurd hc.1 (by decide)
  next => cases hf

/-- The GNU branch is skipped when there is no GNU hash table. -/
theorem gnuPath_none (si : Soinfo) (name : List Nat) (h : si.gnu_hash = none) :
    gnuPath si name = none := by simp [gnuPath, h]

/-- The ELF-hash branch is skipped when there is no ELF hash table. -/
theorem elfPath_none (si : Soinfo) (name : List Nat) (h : si.hash = none) :
    elfPath si name = none := by simp [elfPath, h]

/-- A hit in the GNU branch is what `linker_find_symbol` returns. -/
theorem find_eq_of_gnuPath (si : Soinfo) (name : List Nat) (a : Nat)
    (h : gnuPath si name = some a) : linker_find_symbol si name = a := by
  simp [linker_find_symbol, h]

/-- A hit in the ELF-hash branch is what `linker_find_symbol` returns when
the GNU branch fell through. -/
theorem find_eq_of_elfPath (si : Soinfo) (name : List Nat) (a : Nat)
    (hg : gnuPath si name = none) (h : elfPath si name = some a) :
    linker_find_symbol si name = a := by
  simp [linker_find_symbol, hg, h]

/-- With no hash table at all, `linker_find_symbol` is the linear scan. -/
theorem find_eq_of_linear (si : Soinfo) (name : List Nat) (a : Nat)
    (hh : si.hash = none) (hgn : si.gnu_hash = none)
    (h : linearPath si name = some a) : linker_find_symbol si name = a := by
  simp [linker_find_symbol, gnuPath_none si name hgn, elfPath_none si name hh,
    hh, hgn, h]

/-- The qualifying GNU hit makes `gnuPath` return its address. -/
theorem gnuPath_eq_of_hit (si : Soinfo) (name : List Nat) (g : GnuHashTab)
    (s : ElfSym) (hg : si.gnu_hash = some g) (hl : gnu_lookup si name = some s)
    (hq : symQualifies s) : gnuPath si name = some (symAddr si s) := by
  simp [gnuPath, hg, hl, hq]

/-- Any non-NULL `linker_find_symbol` result is the address
`load_bias + st_value` of a qualifying name match in the symbol table. -/
theorem linker_find_symbol_sound (si : Soinfo) (name : List Nat)
    (h : linker_find_symbol si name ≠ 0) :
    ∃ s ∈ si.symtab, Qualifies si name s ∧
      linker_find_symbol si name = symAddr si s := by
  cases hgp : gnuPath si name with
  | some a =>
    obtain ⟨s, hm, hq, rfl⟩ := gnuPath_sound si name a hgp
    exact ⟨s, hm, hq, find_eq_of_gnuPath si name _ hgp⟩
  | none =>
    cases hep : elfPath si name with
    | some a =>
      obtain ⟨s, hm, hq, rfl⟩ := elfPath_sound si name a hep
      exact ⟨s, hm, hq, find_eq_of_elfPath si name _ hgp hep⟩
    | none =>
      by_cases hb : si.hash = none ∧ si.gnu_hash = none
      · cases hlp : linearPath si name with
        | some a =>
          obtain ⟨s, hm, hq, rfl⟩ := linearPath_sound si name a hlp
          exact ⟨s, hm, hq, find_eq_of_linear si name _ hb.1 hb.2 hlp⟩
        | none =>
          exact absurd (by simp [linker_find_symbol, hgp, hep, hb.1, hb.2, hlp]) h
      · exact absurd (by simp [linker_find_symbol, hgp, hep, hb]) h

/-- Completeness of the linear fallback: with no ELF hash table, a
symbol-table bounded by the 256 scan cap, and qualifying matches having a
non-zero name offset, the scan finds a qualifying match when one exists. -/
theorem linearPath_complete (si : Soinfo) (name : List Nat)
    (hh : si.hash = none) (hlen : si.symtab.length ≤ 256)
    (hname : ∀ s ∈ si.symtab, Qualifies si name s → s.st_name ≠ 0)
    (hex : ∃ s ∈ si.symtab, Qualifies si name s) :
    linearPath si name ≠ none := by
  obtain ⟨s, hs, hq⟩ := hex
  obtain ⟨i, hi, hgi⟩ := List.mem_iff_getElem.mp hs
  intro hnone
  have hmemr : i ∈ List.range (get_symbol_count si) := by
    apply List.mem_range.mpr
    have : get_symbol_count si = 256 := by simp [get_symbol_count, hh]
    omega
  have hfi := List.findSome?_eq_none_iff.mp hnone i hmemr
  have hgd : si.symtab.getD i defaultSym = s := by
    rw [List.getD_eq_getElem si.symtab defaultSym hi, hgi]
  rw [hgd] at hfi
  rw [if_pos ⟨hname s hs hq, hq⟩] at hfi
  cases hfi

/-- C4: `linker_find_symbol` returns a non-null address iff the module's
symbol table contains a symbol with that exact name, section index not
`SHN_UNDEF` and global or weak binding; the returned address for such a
match is `load_bias + st_value` (as a 64-bit pointer), and absence is the
null address.  Hypotheses express that the module is well formed: symbol
addresses are not the null pointer, whichever hash table exists is a
complete accelerator of the symbol table for this name, and without any
hash table the module fits the linear-scan cap of 256 with qualifying
symbols at non-zero name offsets. -/
theorem find_symbol_iff_qualifying (si : Soinfo) (name : List Nat)
    (haddr : ∀ s ∈ si.symtab, symAddr si s ≠ 0)
    (hgnu : ∀ g, si.gnu_hash = some g →
      (∃ s ∈ si.symtab, Qualifies si name s) →
      ∃ s, gnu_lookup si name = some s ∧ s ∈ si.symtab ∧ Qualifies si name s)
    (helf : si.gnu_hash = none → ∀ ht, si.hash = some ht →
      (∃ s ∈ si.symtab, Qualifies si name s) → elfPath si name ≠ none)
    (hlin : si.gnu_hash = none → si.hash = none →
      si.symtab.length ≤ 256 ∧
      ∀ s ∈ si.symtab, Qualifies si name s → s.st_name ≠ 0) :
    (linker_find_symbol si name ≠ 0 ↔ ∃ s ∈ si.symtab, Qualifies si name s) ∧
    (linker_find_symbol si name ≠ 0 →
      ∃ s ∈ si.symtab, Qualifies si name s ∧
        linker_find_symbol si name = symAddr si s) := by
  refine ⟨⟨fun h => ?_, fun hex => ?_⟩, linker_find_symbol_sound si name⟩
  · obtain ⟨s, hm, hq, _⟩ := linker_find_symbol_sound si name h
    exact ⟨s, hm, hq⟩
  · cases hg : si.gnu_hash with
    | some g =>
      obtain ⟨s, hl, hmem, hq⟩ := hgnu g hg hex
      rw [find_eq_of_gnuPath si name _ (gnuPath_eq_of_hit si name g s hg hl hq.2)]
      exact haddr s hmem
    | none =>
      cases hh : si.hash with
      | some ht =>
        have hne := helf hg ht hh hex
        cases hep : elfPath si name with
        | none => exact absurd hep hne
        | some a =>
          obtain ⟨s, hm, _, rfl⟩ := elfPath_sound si name a hep
          rw [find_eq_of_elfPath si name _ (gnuPath_none si name hg) hep]
          exact haddr s hm
      | none =>
        obtain ⟨hlen, hname⟩ := hlin hg hh
        have hne := linearPath_complete si name hh hlen hname hex
        cases hlp : linearPath si name with
        | none => exact absurd hlp hne
        | some a =>
          obtain ⟨s, hm, _, rfl⟩ := linearPath_sound si name a hlp
          rw [find_eq_of_linear si name _ hh hg hlp]
          exact haddr s hm

/-- C4 witness: a concrete hashless module defining "x". -/
theorem find_symbol_iff_qualifying_witness :
    (linker_find_symbol (modDef 7 100 [100]) nameX ≠ 0 ↔
      ∃ s ∈ (modDef 7 100 [100]).symtab, Qualifies (modDef 7 100 [100]) nameX s) ∧
    (linker_find_symbol (modDef 7 100 [100]) nameX ≠ 0 →
      ∃ s ∈ (modDef 7 100 [100]).symtab, Qualifies (modDef 7 100 [100]) nameX s ∧
        linker_find_symbol (modDef 7 100 [100]) nameX =
          symAddr (modDef 7 100 [100]) s) :=
  find_symbol_iff_qualifying (modDef 7 100 [100]) nameX
    (by decide)
    (fun _ hgg => nomatch hgg)
    (fun _ _ hht => nomatch hht)
    (fun _ _ => by decide)

/-- When every step succeeds, `linker_load` registers the module at the
head of the registry and returns it with the success trace. -/
theorem linker_load_of_ok (st : LinkerState) (inp : LoadInput) (h : inp.ok) :
    linker_load st inp =
      ({ st with soinfo_list := loadedModule inp :: st.soinfo_list },
       some (loadedModule inp), loadSuccessEvents) := by
  obtain ⟨h1, h2, h3, h4, h5, h6, h7, h8, h9, h10⟩ := h
  simp [linker_load, h1, h2, h3, h4, h5, h6, h7, h8, h9, h10, loadSuccessEvents]

/-- When some step fails, `linker_load` returns NULL, leaves the registry
untouched, sets the error slot, and the trace shows the reverse-order
cleanup: the `soinfo` record is freed whenever it was allocated, and the
reservation is unmapped whenever it was made. -/
theorem linker_load_of_fail (st : LinkerState) (inp : LoadInput) (hok : ¬ inp.ok) :
    (linker_load st inp).2.1 = none ∧
    (linker_load st inp).1.soinfo_list = st.soinfo_list ∧
    (linker_load st inp).1.has_error = true ∧
    (inp.elf_ok = true → inp.alloc_ok = true →
      Event.freeSi ∈ (linker_load st inp).2.2) ∧
    (inp.elf_ok = true → inp.alloc_ok = true → inp.load_size ≠ 0 →
      inp.reserve_ok = true → Event.munmapReserve ∈ (linker_load st inp).2.2) := by
  by_cases h1 : inp.elf_ok = false
  · simp [linker_load, h1, linker_set_error]
  have h1' : inp.elf_ok = true := eq_true_of_ne_false h1
  by_cases h2 : inp.alloc_ok = false
  · simp [linker_load, h1, h2, linker_set_error]
  have h2' : inp.alloc_ok = true := eq_true_of_ne_false h2
  by_cases h3 : inp.load_size = 0
  · simp [linker_load, h1, h2, h3, linker_set_error]
  by_cases h4 : inp.reserve_ok = false
  · simp [linker_load, h1, h2, h3, h4, linker_set_error]
  have h4' : inp.reserve_ok = true := eq_true_of_ne_false h4
  by_cases h5 : inp.open2_ok = false
  · simp [linker_load, h1, h2, h3, h4, h5, linker_set_error]
  have h5' : inp.open2_ok = true := eq_true_of_ne_false h5
  by_cases h6 : inp.seg_ok = false
  · simp [linker_load, h1, h2, h3, h4, h5, h6, linker_set_error]
  have h6' : inp.seg_ok = true := eq_true_of_ne_false h6
  by_cases h7 : inp.bss_ok = false
  · simp [linker_load, h1, h2, h3, h4, h5, h6, h7, linker_set_error]
  have h7' : inp.bss_ok = true := eq_true_of_ne_false h7
  by_cases h8 : inp.has_dynamic = false
  · simp [linker_load, h1, h2, h3, h4, h5, h6, h7, h8, linker_set_error]
  have h8' : inp.has_dynamic = true := eq_true_of_ne_false h8
  by_cases h9 : inp.has_symtab = false ∨ inp.has_strtab = false
  · simp [linker_load, h1, h2, h3, h4, h5, h6, h7, h8, h9, linker_set_error]
  have h9' : inp.has_symtab = true := by
    rcases Bool.eq_false_or_eq_true inp.has_symtab with hb | hb
    · exact hb
    · exact absurd (Or.inl hb) h9
  have h10' : inp.has_strtab = true := by
    rcases Bool.eq_false_or_eq_true inp.has_strtab with hb | hb
    · exact hb
    · exact absurd (Or.inr hb) h9
  exact absurd ⟨h1', h2', h3, h4', h5', h6', h7', h8', h9', h10'⟩ hok

/-- The registry walk of `linker_find_global_symbol` splits the list into
a miss prefix and the first hit, or misses everywhere. -/
theorem findInList_cases (name : List Nat) : ∀ l : List Soinfo,
    (∃ pre m post, l = pre ++ m :: post ∧
      (∀ x ∈ pre, linker_find_symbol x name = 0) ∧
      linker_find_symbol m name ≠ 0 ∧
      findInList l name = linker_find_symbol m name) ∨
    ((∀ x ∈ l, linker_find_symbol x name = 0) ∧ findInList l name = 0) := by
  intro l
  induction l with
  | nil => right; exact ⟨by simp, rfl⟩
  | cons m rest ih =>
    by_cases hm : linker_find_symbol m name ≠ 0
    · left
      exact ⟨[], m, rest, rfl, by simp, hm, by simp [findInList, hm]⟩
    · have hm0 : linker_find_symbol m name = 0 := not_ne_iff.mp hm
      have hstep : findInList (m :: rest) name = findInList rest name := by
        simp [findInList, hm0]
      rcases ih with ⟨pre, mm, post, heq, hpre, hne, hval⟩ | ⟨hall, hval⟩
      · left
        refine ⟨m :: pre, mm, post, by rw [heq]; rfl, ?_, hne, by rw [hstep, hval]⟩
        intro x hx
        rcases List.mem_cons.mp hx with rfl | hx'
        · exact hm0
        · exact hpre x hx'
      · right
        refine ⟨?_, by rw [hstep, hval]⟩
        intro x hx
        rcases List.mem_cons.mp hx with rfl | hx'
        · exact hm0
        · exact hall x hx'

/-- C1 amended: `linker_find_global_symbol` iterates the registry list
from its head — most recently loaded first, i.e. reverse insertion order,
because a successful `linker_load` prepends the new module — returning the
address from the first module along that order that defines the symbol;
only when no loaded module defines it is the host loader consulted. -/
theorem global_lookup_newest_first (st : LinkerState) (host : List Nat → Nat)
    (name : List Nat) :
    ((∃ pre m post, st.soinfo_list = pre ++ m :: post ∧
        (∀ x ∈ pre, linker_find_symbol x name = 0) ∧
        linker_find_symbol m name ≠ 0 ∧
        linker_find_global_symbol st host name = linker_find_symbol m name) ∨
     ((∀ x ∈ st.soinfo_list, linker_find_symbol x name = 0) ∧
      linker_find_global_symbol st host name = host name)) ∧
    (∀ inp m, (linker_load st inp).2.1 = some m →
      (linker_load st inp).1.soinfo_list = m :: st.soinfo_list) := by
  constructor
  · rcases findInList_cases name st.soinfo_list with
      ⟨pre, m, post, heq, hpre, hne, hval⟩ | ⟨hall, hval⟩
    · left
      exact ⟨pre, m, post, heq, hpre, hne, by
        simp [linker_find_global_symbol, hval, hne]⟩
    · right
      exact ⟨hall, by simp [linker_find_global_symbol, hval]⟩
  · intro inp m hsome
    by_cases hok : inp.ok
    · rw [linker_load_of_ok st inp hok] at hsome ⊢
      cases hsome
      rfl
    · rw [(linker_load_of_fail st inp hok).1] at hsome
      cases hsome

/-- C1 counterexample: load module 1 (defines "x" at 4196), then module 2
(defines "x" at 4296).  The registry is then newest-first, and global
lookup returns module 2's address, not the address from the first module
in insertion order (module 1), refuting the claim as stated. -/
theorem global_lookup_insertion_order_counterexample :
    linker_find_symbol (loadedModule (inpOf (modDef 1 100 [97]))) nameX = 4196 ∧
    linker_find_symbol (loadedModule (inpOf (modDef 2 200 [98]))) nameX = 4296 ∧
    stAB.soinfo_list = [loadedModule (inpOf (modDef 2 200 [98])),
                        loadedModule (inpOf (modDef 1 100 [97]))] ∧
    linker_find_global_symbol_insertion stAB host0 nameX = 4196 ∧
    linker_find_global_symbol stAB host0 nameX = 4296 ∧
    (4296 : Nat) ≠ 4196 := by
  refine ⟨by decide, by decide, by decide, by decide, by decide, by decide⟩

/-- C1 witness: the amended statement at the concrete two-module state. -/
theorem global_lookup_newest_first_witness :
    ((∃ pre m post, stAB.soinfo_list = pre ++ m :: post ∧
        (∀ x ∈ pre, linker_find_symbol x nameX = 0) ∧
        linker_find_symbol m nameX ≠ 0 ∧
        linker_find_global_symbol stAB host0 nameX = linker_find_symbol m nameX) ∨
     ((∀ x ∈ stAB.soinfo_list, linker_find_symbol x nameX = 0) ∧
      linker_find_global_symbol stAB host0 nameX = host0 nameX)) ∧
    (∀ inp m, (linker_load stAB inp).2.1 = some m →
      (linker_load stAB inp).1.soinfo_list = m :: stAB.soinfo_list) :=
  global_lookup_newest_first stAB host0 nameX

/-- C2: per-entry relocation semantics of `do_reloc` (with
`S = reloc_sym_addr`, `A = r_addend`, `B = load_bias`, target
`B + r_offset` as a 64-bit pointer): type 64 writes `S + A`, `GLOB_DAT`
and `JUMP_SLOT` write `S`, `RELATIVE` writes `B + A`, `NONE` and
unrecognised types leave memory unchanged; every entry is non-fatal
(`do_reloc` and `linker_relocate` always return 0); an unresolved
undefined symbol yields `S = 0`, so a `JUMP_SLOT` relocation against it —
in particular a weak one — writes zero and the load does not abort. -/
theorem reloc_semantics (st : LinkerState) (host : List Nat → Nat)
    (si : Soinfo) (r : Rela) (m : Mem) :
    ((do_reloc st host si r m).2 = 0) ∧
    ((linker_relocate st host si m).2 = 0) ∧
    (relocType r.r_info = R_X86_64_64 →
      read64 (do_reloc st host si r m).1
          ((si.load_bias + r.r_offset) % 18446744073709551616) =
        (reloc_sym_addr st host si r + r.r_addend) % 18446744073709551616) ∧
    (relocType r.r_info = R_X86_64_GLOB_DAT ∨
     relocType r.r_info = R_X86_64_JUMP_SLOT →
      read64 (do_reloc st host si r m).1
          ((si.load_bias + r.r_offset) % 18446744073709551616) =
        reloc_sym_addr st host si r % 18446744073709551616) ∧
    (relocType r.r_info = R_X86_64_RELATIVE →
      read64 (do_reloc st host si r m).1
          ((si.load_bias + r.r_offset) % 18446744073709551616) =
        (si.load_bias + r.r_addend) % 18446744073709551616) ∧
    (relocType r.r_info = R_X86_64_NONE ∨
     (relocType r.r_info ≠ R_X86_64_NONE ∧ relocType r.r_info ≠ R_X86_64_64 ∧
      relocType r.r_info ≠ R_X86_64_COPY ∧ relocType r.r_info ≠ R_X86_64_GLOB_DAT ∧
      relocType r.r_info ≠ R_X86_64_JUMP_SLOT ∧ relocType r.r_info ≠ R_X86_64_RELATIVE) →
      (do_reloc st host si r m).1 = m) ∧
    (relocSym r.r_info ≠ 0 →
     (si.symtab.getD (relocSym r.r_info) defaultSym).st_shndx = SHN_UNDEF →
     linker_find_global_symbol st host
       (strAt si.strtab (si.symtab.getD (relocSym r.r_info) defaultSym).st_name) = 0 →
      reloc_sym_addr st host si r = 0 ∧
      (relocType r.r_info = R_X86_64_JUMP_SLOT →
        read64 (do_reloc st host si r m).1
          ((si.load_bias + r.r_offset) % 18446744073709551616) = 0)) := by
  have hstatus : (do_reloc st host si r m).2 = 0 := by
    unfold do_reloc
    dsimp only
    split_ifs <;> rfl
  have hglob_jump : ∀ ht : relocType r.r_info = R_X86_64_GLOB_DAT ∨
      relocType r.r_info = R_X86_64_JUMP_SLOT,
      read64 (do_reloc st host si r m).1
        ((si.load_bias + r.r_offset) % 18446744073709551616) =
      reloc_sym_addr st host si r % 18446744073709551616 := by
    intro ht
    have hdr : (do_reloc st host si r m).1 =
        write64 m ((si.load_bias + r.r_offset) % 18446744073709551616)
          (reloc_sym_addr st host si r) := by
      rcases ht with ht | ht <;>
        simp [do_reloc, ht, R_X86_64_NONE, R_X86_64_64, R_X86_64_COPY,
          R_X86_64_GLOB_DAT, R_X86_64_JUMP_SLOT, R_X86_64_RELATIVE]
    rw [hdr, read64_write64]
  refine ⟨hstatus, rfl, ?_, hglob_jump, ?_, ?_, ?_⟩
  · intro ht
    have hdr : (do_reloc st host si r m).1 =
        write64 m ((si.load_bias + r.r_offset) % 18446744073709551616)
          ((reloc_sym_addr st host si r + r.r_addend) % 18446744073709551616) := by
      simp [do_reloc, ht, R_X86_64_NONE, R_X86_64_64]
    rw [hdr, read64_write64]
    omega
  · intro ht
    have hdr : (do_reloc st host si r m).1 =
        write64 m ((si.load_bias + r.r_offset) % 18446744073709551616)
          ((si.load_bias + r.r_addend) % 18446744073709551616) := by
      simp [do_reloc, ht, R_X86_64_NONE, R_X86_64_64, R_X86_64_COPY,
        R_X86_64_GLOB_DAT, R_X86_64_JUMP_SLOT, R_X86_64_RELATIVE]
    rw [hdr, read64_write64]
    omega
  · rintro (ht | ⟨h0, h1, h5, h6, h7, h8⟩)
    · simp [do_reloc, ht, R_X86_64_NONE]
    · simp [do_reloc, h0, h1, h5, h6, h7, h8]
  · intro hsym hundef hglob
    have hra : reloc_sym_addr st host si r = 0 := by
      unfold reloc_sym_addr
      dsimp only
      rw [if_neg hsym, if_neg (not_not_intro hundef)]
      exact hglob
    refine ⟨hra, fun ht => ?_⟩
    have := hglob_jump (Or.inr ht)
    rw [hra] at this
    simpa using this

/-- C2 witness: the relocation semantics at a concrete `RELATIVE` entry
(`r_info = 8`, addend 7) against an empty linker state and zero memory. -/
theorem reloc_semantics_witness :
    ((do_reloc linker_init host0 (modDef 3 0 [99]) ⟨0, 8, 7⟩ mem0).2 = 0) ∧
    ((linker_relocate linker_init host0 (modDef 3 0 [99]) mem0).2 = 0) ∧
    (relocType (8 : Nat) = R_X86_64_64 →
      read64 (do_reloc linker_init host0 (modDef 3 0 [99]) ⟨0, 8, 7⟩ mem0).1
          (((modDef 3 0 [99]).load_bias + 0) % 18446744073709551616) =
        (reloc_sym_addr linker_init host0 (modDef 3 0 [99]) ⟨0, 8, 7⟩ + 7) %
          18446744073709551616) ∧
    (relocType (8 : Nat) = R_X86_64_GLOB_DAT ∨ relocType (8 : Nat) = R_X86_64_JUMP_SLOT →
      read64 (do_reloc linker_init host0 (modDef 3 0 [99]) ⟨0, 8, 7⟩ mem0).1
          (((modDef 3 0 [99]).load_bias + 0) % 18446744073709551616) =
        reloc_sym_addr linker_init host0 (modDef 3 0 [99]) ⟨0, 8, 7⟩ %
          18446744073709551616) ∧
    (relocType (8 : Nat) = R_X86_64_RELATIVE →
      read64 (do_reloc linker_init host0 (modDef 3 0 [99]) ⟨0, 8, 7⟩ mem0).1
          (((modDef 3 0 [99]).load_bias + 0) % 18446744073709551616) =
        ((modDef 3 0 [99]).load_bias + 7) % 18446744073709551616) ∧
    (relocType (8 : Nat) = R_X86_64_NONE ∨
     (relocType (8 : Nat) ≠ R_X86_64_NONE ∧ relocType (8 : Nat) ≠ R_X86_64_64 ∧
      relocType (8 : Nat) ≠ R_X86_64_COPY ∧ relocType (8 : Nat) ≠ R_X86_64_GLOB_DAT ∧
      relocType (8 : Nat) ≠ R_X86_64_JUMP_SLOT ∧ relocType (8 : Nat) ≠ R_X86_64_RELATIVE) →
      (do_reloc linker_init host0 (modDef 3 0 [99]) ⟨0, 8, 7⟩ mem0).1 = mem0) ∧
    (relocSym (8 : Nat) ≠ 0 →
     ((modDef 3 0 [99]).symtab.getD (relocSym (8 : Nat)) defaultSym).st_shndx = SHN_UNDEF →
     linker_find_global_symbol linker_init host0
       (strAt (modDef 3 0 [99]).strtab
         ((modDef 3 0 [99]).symtab.getD (relocSym (8 : Nat)) defaultSym).st_name) = 0 →
      reloc_sym_addr linker_init host0 (modDef 3 0 [99]) ⟨0, 8, 7⟩ = 0 ∧
      (relocType (8 : Nat) = R_X86_64_JUMP_SLOT →
        read64 (do_reloc linker_init host0 (modDef 3 0 [99]) ⟨0, 8, 7⟩ mem0).1
          (((modDef 3 0 [99]).load_bias + 0) % 18446744073709551616) = 0)) :=
  reloc_semantics linker_init host0 (modDef 3 0 [99]) ⟨0, 8, 7⟩ mem0

/-- C5: on every successful `mini_dlopen`, the module is already in the
registry when the constructors run; the trace is the load trace (which
contains the registry insert, the segment-fd close and the ELF-view close,
and no constructor call) followed by the constructor calls. -/
theorem load_registers_before_constructors (st : LinkerState) (inp : LoadInput)
    (flags : Nat) (st' : LinkerState) (m : Soinfo) (evs : List Event)
    (h : mini_dlopen st (some inp) flags = (st', some m, evs)) :
    m ∈ st'.soinfo_list ∧
    evs = loadSuccessEvents ++ constructor_events m ∧
    (∀ e ∈ loadSuccessEvents, e.isCtor = false) ∧
    Event.insertRegistry ∈ loadSuccessEvents ∧
    Event.closeFd ∈ loadSuccessEvents ∧
    Event.elfClose ∈ loadSuccessEvents := by
  by_cases hok : inp.ok
  · unfold mini_dlopen at h
    dsimp only at h
    rw [linker_load_of_ok st inp hok] at h
    have h' : ({ st with soinfo_list := loadedModule inp :: st.soinfo_list },
        some (loadedModule inp),
        loadSuccessEvents ++ constructor_events (loadedModule inp)) =
        (st', some m, evs) := h
    injection h' with hA hBC
    injection hBC with hB hC
    injection hB with hm
    subst hA
    subst hm
    subst hC
    refine ⟨List.mem_cons_self _ _, rfl, by decide, by decide, by decide, by decide⟩
  · unfold mini_dlopen at h
    dsimp only at h
    rw [(linker_load_of_fail st inp hok).1] at h
    have h' : ((linker_load st inp).1, (none : Option Soinfo),
        (linker_load st inp).2.2) = (st', some m, evs) := h
    injection h' with _ hBC
    injection hBC with hB _
    exact Option.noConfusion hB

/-- C5 witness: loading a concrete module with one `DT_INIT` and one valid
init-array entry. -/
theorem load_registers_before_constructors_witness :
    loadedModule (inpOf modCtor) ∈
      (mini_dlopen linker_init (some (inpOf modCtor)) 1).1.soinfo_list ∧
    (mini_dlopen linker_init (some (inpOf modCtor)) 1).2.2 =
      loadSuccessEvents ++ constructor_events (loadedModule (inpOf modCtor)) ∧
    (∀ e ∈ loadSuccessEvents, e.isCtor = false) ∧
    Event.insertRegistry ∈ loadSuccessEvents ∧
    Event.closeFd ∈ loadSuccessEvents ∧
    Event.elfClose ∈ loadSuccessEvents :=
  load_registers_before_constructors linker_init (inpOf modCtor) 1
    (mini_dlopen linker_init (some (inpOf modCtor)) 1).1
    (loadedModule (inpOf modCtor))
    (mini_dlopen linker_init (some (inpOf modCtor)) 1).2.2
    (by decide)

/-- C6: the error slot is one-shot.  Writing an error stores the (at most
511-byte) message and sets the dirty flag; reading with the dirty flag set
returns the buffered string and clears the flag, and an immediately
following read returns NULL; after a failed per-module lookup the buffered
string ends in the symbol name (provided the formatted message fits the
512-byte buffer). -/
theorem error_slot_one_shot (st : LinkerState) (host : List Nat → Nat)
    (msg name : List Nat) (h : Nat) (m : Soinfo)
    (hfind : st.soinfo_list.find? (fun x => x.id = h) = some m)
    (hmiss : linker_find_symbol m name = 0)
    (hdef : h ≠ MINI_RTLD_DEFAULT) (hnext : h ≠ MINI_RTLD_NEXT)
    (hlen : (msgDlsymNotFoundInPre ++ m.name ++ msgColonSpace ++ name).length ≤ 511) :
    ((linker_set_error st msg).has_error = true ∧
     (linker_set_error st msg).error_msg = msg.take 511) ∧
    (st.has_error = true →
      linker_get_error st = (some st.error_msg, { st with has_error := false }) ∧
      (linker_get_error (linker_get_error st).2).1 = none) ∧
    ((mini_dlsym st host h (some name)).2 = 0 ∧
     (∃ l, (linker_get_error (mini_dlsym st host h (some name)).1).1 =
        some (l ++ name)) ∧
     (linker_get_error
       (linker_get_error (mini_dlsym st host h (some name)).1).2).1 = none) := by
  have hds : mini_dlsym st host h (some name) =
      (linker_set_error st
        (msgDlsymNotFoundInPre ++ m.name ++ msgColonSpace ++ name), 0) := by
    unfold mini_dlsym
    dsimp only
    rw [if_neg hdef, if_neg hnext, hfind]
    dsimp only
    rw [hmiss, if_pos rfl]
  refine ⟨⟨rfl, rfl⟩, fun hd => ⟨by simp [linker_get_error, hd], ?_⟩, ?_⟩
  · simp [linker_get_error, hd]
  · rw [hds]
    refine ⟨rfl, ⟨msgDlsymNotFoundInPre ++ m.name ++ msgColonSpace, ?_⟩, ?_⟩
    · have htake : ((msgDlsymNotFoundInPre ++ m.name ++ msgColonSpace ++ name).take 511)
          = msgDlsymNotFoundInPre ++ m.name ++ msgColonSpace ++ name :=
        List.take_of_length_le hlen
      have hget : (linker_get_error (linker_set_error st
          (msgDlsymNotFoundInPre ++ m.name ++ msgColonSpace ++ name))).1 =
          some ((msgDlsymNotFoundInPre ++ m.name ++ msgColonSpace ++ name).take 511) := rfl
      rw [hget, htake]
    · simp [linker_get_error, linker_set_error]

/-- C6 witness: looking up the undefined "z" in a registry with one
module. -/
theorem error_slot_one_shot_witness :
    ((linker_set_error stOne nameZ).has_error = true ∧
     (linker_set_error stOne nameZ).error_msg = nameZ.take 511) ∧
    (stOne.has_error = true →
      linker_get_error stOne = (some stOne.error_msg, { stOne with has_error := false }) ∧
      (linker_get_error (linker_get_error stOne).2).1 = none) ∧
    ((mini_dlsym stOne host0 1 (some nameZ)).2 = 0 ∧
     (∃ l, (linker_get_error (mini_dlsym stOne host0 1 (some nameZ)).1).1 =
        some (l ++ nameZ)) ∧
     (linker_get_error
       (linker_get_error (mini_dlsym stOne host0 1 (some nameZ)).1).2).1 = none) :=
  error_slot_one_shot stOne host0 nameZ nameZ 1 (modDef 1 100 [97])
    (by decide) (by decide) (by decide) (by decide) (by decide)

/-- C7: whenever `linker_load` returns NULL, some step failed, the module
registry is unchanged, the error slot is set, and the trace shows the
cleanup: the `soinfo` record is freed whenever it was allocated and the
reservation is unmapped whenever it was made. -/
theorem load_failure_atomic (st : LinkerState) (inp : LoadInput)
    (h : (linker_load st inp).2.1 = none) :
    ¬ inp.ok ∧
    (linker_load st inp).1.soinfo_list = st.soinfo_list ∧
    (linker_load st inp).1.has_error = true ∧
    (inp.elf_ok = true → inp.alloc_ok = true →
      Event.freeSi ∈ (linker_load st inp).2.2) ∧
    (inp.elf_ok = true → inp.alloc_ok = true → inp.load_size ≠ 0 →
      inp.reserve_ok = true → Event.munmapReserve ∈ (linker_load st inp).2.2) := by
  by_cases hok : inp.ok
  · rw [linker_load_of_ok st inp hok] at h
    exact absurd h (by simp)
  · obtain ⟨_, h2, h3, h4, h5⟩ := linker_load_of_fail st inp hok
    exact ⟨hok, h2, h3, h4, h5⟩

/-- C7 witness: a load input whose dynamic section lacks the symbol
table. -/
theorem load_failure_atomic_witness :
    ¬ inpBad.ok ∧
    (linker_load linker_init inpBad).1.soinfo_list = linker_init.soinfo_list ∧
    (linker_load linker_init inpBad).1.has_error = true ∧
    (inpBad.elf_ok = true → inpBad.alloc_ok = true →
      Event.freeSi ∈ (linker_load linker_init inpBad).2.2) ∧
    (inpBad.elf_ok = true → inpBad.alloc_ok = true → inpBad.load_size ≠ 0 →
      inpBad.reserve_ok = true →
      Event.munmapReserve ∈ (linker_load linker_init inpBad).2.2) :=
  load_failure_atomic linker_init inpBad (by decide)

/-- The descending `DT_FINI_ARRAY` loop visits the indices of
`List.range` in reverse, skipping invalid entries. -/
theorem fini_array_events_eq (arr : List Nat) : ∀ n,
    fini_array_events arr n =
      ((List.range n).reverse.filter
          (fun i => is_valid_func_ptr (arr.getD i 0))).map
        (fun i => Event.callFini (arr.getD i 0)) := by
  intro n
  induction n with
  | zero => rfl
  | succ k ih =>
    simp only [fini_array_events]
    rw [List.range_succ, List.reverse_append,
      show ([k] : List Nat).reverse = [k] from rfl, List.singleton_append,
      List.filter_cons]
    by_cases hv : is_valid_func_ptr (arr.getD k 0) = true
    · rw [if_pos hv, if_pos hv, List.map_cons, ih, List.singleton_append]
    · rw [if_neg hv, if_neg hv, ih, List.nil_append]

/-- With distinct ids, `find?` by id locates exactly the member carrying
that id. -/
theorem find_by_id (h : Nat) : ∀ (l : List Soinfo), (l.map Soinfo.id).Nodup →
    ∀ m ∈ l, m.id = h → l.find? (fun x => x.id = h) = some m := by
  intro l
  induction l with
  | nil => intro _ m hm; cases hm
  | cons x xs ih =>
    intro hnd m hm hid
    rw [List.map_cons] at hnd
    obtain ⟨hx, hnd'⟩ := List.nodup_cons.mp hnd
    rcases List.mem_cons.mp hm with rfl | hm'
    · have hp : (fun y : Soinfo => decide (y.id = h)) m = true := by simp [hid]
      simp [List.find?, hp]
    · have hxid : ¬ x.id = h := by
        intro hx'
        apply hx
        rw [hx', ← hid]
        exact List.mem_map_of_mem Soinfo.id hm'
      have hp : (fun y : Soinfo => decide (y.id = h)) x = false := by simp [hxid]
      simp only [List.find?, hp]
      exact ih hnd' m hm' hid

/-- `removeFirst` only drops elements. -/
theorem removeFirst_subset (h : Nat) : ∀ (l : List Soinfo),
    ∀ x ∈ removeFirst h l, x ∈ l := by
  intro l
  induction l with
  | nil => intro x hx; cases hx
  | cons y ys ih =>
    intro x hx
    unfold removeFirst at hx
    by_cases hy : y.id = h
    · rw [if_pos hy] at hx
      exact List.mem_cons_of_mem y hx
    · rw [if_neg hy] at hx
      rcases List.mem_cons.mp hx with rfl | hx'
      · exact List.mem_cons_self x ys
      · exact List.mem_cons_of_mem y (ih x hx')

/-- With distinct ids, after `removeFirst h` no member carries id `h`. -/
theorem removeFirst_id_not_mem (h : Nat) : ∀ (l : List Soinfo),
    (l.map Soinfo.id).Nodup → ∀ x ∈ removeFirst h l, x.id ≠ h := by
  intro l
  induction l with
  | nil => intro _ x hx; cases hx
  | cons y ys ih =>
    intro hnd x hx
    rw [List.map_cons] at hnd
    obtain ⟨hy, hnd'⟩ := List.nodup_cons.mp hnd
    unfold removeFirst at hx
    by_cases hyid : y.id = h
    · rw [if_pos hyid] at hx
      intro hxid
      apply hy
      rw [hyid, ← hxid]
      exact List.mem_map_of_mem Soinfo.id hx
    · rw [if_neg hyid] at hx
      rcases List.mem_cons.mp hx with rfl | hx'
      · exact hyid
      · exact ih hnd' x hx'

/-- `removeFirst` removes exactly one node when a member carries the
id. -/
theorem removeFirst_length (h : Nat) : ∀ (l : List Soinfo), ∀ m ∈ l,
    m.id = h → (removeFirst h l).length + 1 = l.length := by
  intro l
  induction l with
  | nil => intro m hm; cases hm
  | cons y ys ih =>
    intro m hm hid
    unfold removeFirst
    by_cases hy : y.id = h
    · rw [if_pos hy]
      rfl
    · rw [if_neg hy]
      rcases List.mem_cons.mp hm with rfl | hm'
      · exact absurd hid hy
      · simp only [List.length_cons]
        rw [← ih m hm' hid]

/-- C8: `linker_unload` decrements the handle's reference count and, while
the count stays positive, returns with the module still registered and
runs nothing; when the count reaches zero it emits the `fini_array` calls
in descending index order (skipping invalid entries), then `DT_FINI` when
valid, then unmaps and frees, and the record leaves the registry.
Consequently `reference_count ≥ 1` is an invariant of the registry under
both `linker_unload` and `linker_load`. -/
theorem unload_refcount_semantics (st : LinkerState) (h : Nat) (m : Soinfo)
    (hnd : (st.soinfo_list.map Soinfo.id).Nodup)
    (hmem : m ∈ st.soinfo_list) (hid : m.id = h) :
    (1 < m.ref_count →
      (linker_unload st h).2 = [] ∧
      { m with ref_count := m.ref_count - 1 } ∈ (linker_unload st h).1.soinfo_list ∧
      (linker_unload st h).1.soinfo_list.length = st.soinfo_list.length) ∧
    (m.ref_count = 1 →
      (linker_unload st h).2 =
        ((List.range m.fini_array.length).reverse.filter
            (fun i => is_valid_func_ptr (m.fini_array.getD i 0))).map
          (fun i => Event.callFini (m.fini_array.getD i 0)) ++
        (if is_valid_func_ptr m.fini_func then [Event.callFini m.fini_func]
         else []) ++
        [Event.munmapModule, Event.freeModule] ∧
      (∀ x ∈ (linker_unload st h).1.soinfo_list, x.id ≠ h) ∧
      (linker_unload st h).1.soinfo_list.length + 1 = st.soinfo_list.length) ∧
    (RegistryWF st → RegistryWF (linker_unload st h).1) ∧
    (∀ inp, RegistryWF st → RegistryWF (linker_load st inp).1) := by
  have hfind : st.soinfo_list.find? (fun x => x.id = h) = some m :=
    find_by_id h st.soinfo_list hnd m hmem hid
  refine ⟨fun hgt => ?_, fun hone => ?_, fun hwf => ?_, fun inp hwf => ?_⟩
  · have hcond : m.ref_count - 1 > 0 := by omega
    have hu : linker_unload st h =
        ({ st with soinfo_list := st.soinfo_list.map (decRef h) }, []) := by
      simp only [linker_unload, hfind]
      rw [if_pos hcond]
    rw [hu]
    refine ⟨rfl, ?_, by simp⟩
    have : decRef h m = { m with ref_count := m.ref_count - 1 } := by
      simp [decRef, hid]
    rw [← this]
    exact List.mem_map_of_mem (decRef h) hmem
  · have hcond : ¬ m.ref_count - 1 > 0 := by omega
    have hu : linker_unload st h =
        ({ st with soinfo_list := removeFirst h st.soinfo_list },
         destructor_events m ++ [Event.munmapModule, Event.freeModule]) := by
      simp only [linker_unload, hfind]
      rw [if_neg hcond]
    rw [hu]
    refine ⟨?_, ?_, ?_⟩
    · unfold destructor_events
      rw [fini_array_events_eq]
    · exact removeFirst_id_not_mem h st.soinfo_list hnd
    · exact removeFirst_length h st.soinfo_list m hmem hid
  · by_cases hgt : m.ref_count - 1 > 0
    · have hu : linker_unload st h =
          ({ st with soinfo_list := st.soinfo_list.map (decRef h) }, []) := by
        simp only [linker_unload, hfind]
        rw [if_pos hgt]
      rw [hu]
      intro x hx
      obtain ⟨y, hy, rfl⟩ := List.mem_map.mp hx
      unfold decRef
      by_cases hyid : y.id = h
      · rw [if_pos hyid]
        have hym : y = m :=
          List.inj_on_of_nodup_map hnd hy hmem (by rw [hyid, hid])
        subst hym
        simp only
        omega
      · rw [if_neg hyid]
        exact hwf y hy
    · have hu : linker_unload st h =
          ({ st with soinfo_list := removeFirst h st.soinfo_list },
           destructor_events m ++ [Event.munmapModule, Event.freeModule]) := by
        simp only [linker_unload, hfind]
        rw [if_neg hgt]
      rw [hu]
      intro x hx
      exact hwf x (removeFirst_subset h st.soinfo_list x hx)
  · by_cases hok : inp.ok
    · rw [linker_load_of_ok st inp hok]
      intro x hx
      rcases List.mem_cons.mp hx with rfl | hx'
      · simp [loadedModule]
      · exact hwf x hx'
    · intro x hx
      rw [(linker_load_of_fail st inp hok).2.1] at hx
      exact hwf x hx

/-- C8 witness: unloading a registry with one module at reference
count 1. -/
theorem unload_refcount_semantics_witness :
    (1 < modR.ref_count →
      (linker_unload stR 1).2 = [] ∧
      { modR with ref_count := modR.ref_count - 1 } ∈
        (linker_unload stR 1).1.soinfo_list ∧
      (linker_unload stR 1).1.soinfo_list.length = stR.soinfo_list.length) ∧
    (modR.ref_count = 1 →
      (linker_unload stR 1).2 =
        ((List.range modR.fini_array.length).reverse.filter
            (fun i => is_valid_func_ptr (modR.fini_array.getD i 0))).map
          (fun i => Event.callFini (modR.fini_array.getD i 0)) ++
        (if is_valid_func_ptr modR.fini_func then [Event.callFini modR.fini_func]
         else []) ++
        [Event.munmapModule, Event.freeModule] ∧
      (∀ x ∈ (linker_unload stR 1).1.soinfo_list, x.id ≠ 1) ∧
      (linker_unload stR 1).1.soinfo_list.length + 1 = stR.soinfo_list.length) ∧
    (RegistryWF stR → RegistryWF (linker_unload stR 1).1) ∧
    (∀ inp, RegistryWF stR → RegistryWF (linker_load stR inp).1) :=
  unload_refcount_semantics stR 1 modR (by decide) (by decide) (by decide)

/-- C9: the observable behaviour of `mini_dlopen` is independent of its
flags argument — for every state, path and pair of flag values the two
runs produce identical results (same success/failure outcome, same error
slot, same linker state, same trace), because the implementation discards
the argument (`(void)flags`). -/
theorem dlopen_flags_ignored (st : LinkerState) (path : Option LoadInput)
    (f1 f2 : Nat) : mini_dlopen st path f1 = mini_dlopen st path f2 := rfl

/-- C10: each facade operation given a NULL pointer argument fails
without touching the registry and sets the error slot: `mini_dlopen` with
a NULL path returns NULL, `mini_dlsym` with a NULL symbol name returns
NULL, and `mini_dlclose` with a NULL handle returns -1. -/
theorem null_arguments_fail_cleanly (st : LinkerState) (host : List Nat → Nat)
    (flags h : Nat) :
    ((mini_dlopen st none flags).2.1 = none ∧
     (mini_dlopen st none flags).1.soinfo_list = st.soinfo_list ∧
     (mini_dlopen st none flags).1.has_error = true ∧
     (mini_dlopen st none flags).2.2 = []) ∧
    ((mini_dlsym st host h none).2 = 0 ∧
     (mini_dlsym st host h none).1.soinfo_list = st.soinfo_list ∧
     (mini_dlsym st host h none).1.has_error = true) ∧
    ((mini_dlclose st 0).2.1 = -1 ∧
     (mini_dlclose st 0).1.soinfo_list = st.soinfo_list ∧
     (mini_dlclose st 0).1.has_error = true) :=
  ⟨⟨rfl, rfl, rfl, rfl⟩, ⟨rfl, rfl, rfl⟩, ⟨rfl, rfl, rfl⟩⟩
